import Mathlib

/-!
Verification of the recipe-management backend (`RuhidDadashh/Recipe`).

The repository under scrutiny is a Django REST application: user-owned
`Tag`, `Ingredient` and `Recipe` rows with many-to-many joins, CRUD
endpoints scoped to the authenticated user, query-parameter filters,
and an image-upload sub-action.  The `src/` tree of this repository
ships the test suites (`recipe/tests/*.py`) and `users/views.py`; the
recipe app's models, serializers and views are part of the repository
but absent from `src/`, so those operations are modelled from the
specification (each such definition is marked `Modelled from the
spec:`).  `users/views.py` is present and is embedded directly.
-/

set_option autoImplicit false

namespace Recipe

/-- A user id.  Users own tags, ingredients and recipes. -/
abbrev UserId := Nat

/-- Modelled from the spec: the `Tag` row of the missing `core/models.py` —
id, name, and the owning user. -/
structure Tag where
  id : Nat
  name : String
  user : UserId
  deriving DecidableEq, Repr

/-- Modelled from the spec: the `Ingredient` row of the missing
`core/models.py` — id, name, and the owning user. -/
structure Ingredient where
  id : Nat
  name : String
  user : UserId
  deriving DecidableEq, Repr

/-- Modelled from the spec: the `Recipe` row of the missing
`core/models.py` — scalar fields (title, time_minutes, price, optional
link, optional image reference), the owning user, and the two
many-to-many relations stored as id lists (the join tables). -/
structure RecipeRow where
  id : Nat
  title : String
  time_minutes : Nat
  price : Int
  link : Option String
  image : Option String
  user : UserId
  tags : List Nat
  ingredients : List Nat
  deriving DecidableEq, Repr

/-- The relational store: one table per entity (users are only ids here;
the user table itself is modelled separately for the users endpoint). -/
structure DB where
  tags : List Tag
  ingredients : List Ingredient
  recipes : List RecipeRow
  deriving DecidableEq, Repr

/-- Outcome of an API call: a status code with data, or a bare error
status (400 validation, 401 unauthorized, 404 not found) carrying no
resource data. -/
inductive ApiResult (α : Type) where
  | ok (status : Nat) (data : α)
  | err (status : Nat)
  deriving DecidableEq, Repr

/-! ### Id-list filter parsing

Modelled from the spec: the recipe view's private helper that turns a
query string such as `"3, 5"` into integer ids — split on commas, trim
whitespace around each piece, convert to integers. -/

/-- Split a character list at every comma (the pieces do not contain
commas; `n` commas yield `n + 1` pieces). -/
def splitCommas : List Char → List (List Char)
  | [] => [[]]
  | c :: cs =>
    match splitCommas cs with
    | [] => [[c]]
    | p :: ps => if c = ',' then [] :: p :: ps else (c :: p) :: ps

/-- Drop spaces from both ends of a piece. -/
def trimSpaces (l : List Char) : List Char :=
  ((l.dropWhile (· = ' ')).reverse.dropWhile (· = ' ')).reverse

/-- Convert a non-empty all-digit character list to a natural number. -/
def digitsToNat (l : List Char) : Option Nat :=
  if l ≠ [] ∧ l.all (·.isDigit) then
    some (l.foldl (fun n c => n * 10 + (c.toNat - '0'.toNat)) 0)
  else none

/-- Modelled from the spec: parse a comma-separated id-list query value,
trimming embedded whitespace around commas before converting to ids. -/
def parseIdList (s : String) : List Nat :=
  (splitCommas s.toList).filterMap (fun p => digitsToNat (trimSpaces p))

/-! ### Ingredient endpoint -/

/-- Descending-by-name ordering used by the tag/ingredient list views. -/
def ingredientNameDesc (a b : Ingredient) : Prop := b.name ≤ a.name

instance : DecidableRel ingredientNameDesc := fun a b =>
  inferInstanceAs (Decidable (b.name ≤ a.name))

/-- Modelled from the spec: the queryset of the Ingredient `LIST`
operation (missing `recipe/views.py`) — rows owned by the current user,
restricted under `assigned_only=1` to rows attached to at least one
recipe via the many-to-many join (the join yields one row per
(recipe, ingredient) pair, then deduplicated), ordered by name
descending. -/
def ingredientListData (db : DB) (u : UserId) (assigned_only : Bool) : List Ingredient :=
  let mine := db.ingredients.filter (fun i => i.user = u)
  let rows :=
    if assigned_only then
      (mine.flatMap (fun i =>
        (db.recipes.filter (fun r => i.id ∈ r.ingredients)).map (fun _ => i))).dedup
    else mine
  rows.insertionSort ingredientNameDesc

/-- Modelled from the spec: the Ingredient `LIST` endpoint — requests
without a valid credential are rejected with 401 and no data; otherwise
the scoped queryset is returned with 200. -/
def ingredientList (db : DB) (cred : Option UserId) (assigned_only : Bool) :
    ApiResult (List Ingredient) :=
  match cred with
  | none => .err 401
  | some u => .ok 200 (ingredientListData db u assigned_only)

/-- Next fresh ingredient id: one past the largest id in the table. -/
def nextIngredientId (db : DB) : Nat :=
  (db.ingredients.foldr (fun i m => max i.id m) 0) + 1

/-- Modelled from the spec: the Ingredient `CREATE` endpoint — missing
or empty `name` is a 400 validation error persisting nothing; otherwise
a row with that name owned by the caller is persisted (201). -/
def ingredientCreate (db : DB) (cred : Option UserId) (name : Option String) :
    ApiResult Ingredient × DB :=
  match cred with
  | none => (.err 401, db)
  | some u =>
    match name with
    | none => (.err 400, db)
    | some n =>
      if n = "" then (.err 400, db)
      else
        let i : Ingredient := { id := nextIngredientId db, name := n, user := u }
        (.ok 201 i, { db with ingredients := i :: db.ingredients })

/-! ### Recipe endpoint -/

/-- Modelled from the spec: the queryset of the Recipe `LIST` operation
(missing `recipe/views.py`) — recipes owned by the current user; the
`tags`/`ingredients` id-list filters each require at least one matching
id (OR within a list, AND across filter types). -/
def recipeListData (db : DB) (u : UserId)
    (tagsFilter : Option String) (ingredientsFilter : Option String) : List RecipeRow :=
  let base := db.recipes.filter (fun r => r.user = u)
  let afterTags :=
    match tagsFilter with
    | none => base
    | some s => base.filter (fun r => r.tags.any (fun t => t ∈ parseIdList s))
  match ingredientsFilter with
  | none => afterTags
  | some s => afterTags.filter (fun r => r.ingredients.any (fun i => i ∈ parseIdList s))

/-- Modelled from the spec: the Recipe `LIST` endpoint — 401 with no
data absent a valid credential, else the scoped, filtered queryset. -/
def recipeList (db : DB) (cred : Option UserId)
    (tagsFilter : Option String) (ingredientsFilter : Option String) :
    ApiResult (List RecipeRow) :=
  match cred with
  | none => .err 401
  | some u => .ok 200 (recipeListData db u tagsFilter ingredientsFilter)

/-- Look up a recipe by id inside the caller's ownership scope (foreign
rows resolve as not-found). -/
def findRecipe (db : DB) (u : UserId) (rid : Nat) : Option RecipeRow :=
  (db.recipes.filter (fun r => r.user = u)).find? (fun r => r.id = rid)

/-- Payload of a `PATCH` on a recipe: every field optional; `none`
means the field was not supplied. -/
structure RecipePatch where
  title : Option String := none
  time_minutes : Option Nat := none
  price : Option Int := none
  link : Option String := none
  tags : Option (List Nat) := none
  ingredients : Option (List Nat) := none
  deriving DecidableEq, Repr

/-- Modelled from the spec: patch semantics — supplied fields replace
the stored value (a supplied `tags`/`ingredients` list replaces the full
relation), unsupplied fields are untouched; id and owner never change. -/
def applyPatch (r : RecipeRow) (p : RecipePatch) : RecipeRow :=
  { r with
    title := p.title.getD r.title
    time_minutes := p.time_minutes.getD r.time_minutes
    price := p.price.getD r.price
    link := match p.link with | none => r.link | some l => some l
    tags := p.tags.getD r.tags
    ingredients := p.ingredients.getD r.ingredients }

/-- Modelled from the spec: the Recipe `PARTIAL_UPDATE` (PATCH)
endpoint — 401 without credential, not-found outside the caller's
scope, else the patched row replaces the stored row and is returned. -/
def recipePatchUpdate (db : DB) (cred : Option UserId) (rid : Nat) (p : RecipePatch) :
    ApiResult RecipeRow × DB :=
  match cred with
  | none => (.err 401, db)
  | some u =>
    match findRecipe db u rid with
    | none => (.err 404, db)
    | some r =>
      let r' := applyPatch r p
      (.ok 200 r',
       { db with recipes := db.recipes.map (fun x => if x.user = u ∧ x.id = rid then r' else x) })

/-- Payload of a `PUT` on a recipe: the scalar fields are required,
the many-to-many id lists are optional (omitted = `none`). -/
structure RecipePut where
  title : String
  time_minutes : Nat
  price : Int
  link : Option String := none
  tags : Option (List Nat) := none
  ingredients : Option (List Nat) := none
  deriving DecidableEq, Repr

/-- Modelled from the spec: put semantics — all fields replaced; an
omitted `tags`/`ingredients` list is cleared to empty, not preserved. -/
def applyPut (r : RecipeRow) (p : RecipePut) : RecipeRow :=
  { r with
    title := p.title
    time_minutes := p.time_minutes
    price := p.price
    link := p.link
    tags := p.tags.getD []
    ingredients := p.ingredients.getD [] }

/-- Modelled from the spec: the Recipe `FULL_UPDATE` (PUT) endpoint —
401 without credential, not-found outside the caller's scope, else the
row is fully replaced (omitted relations cleared) and returned. -/
def recipePutUpdate (db : DB) (cred : Option UserId) (rid : Nat) (p : RecipePut) :
    ApiResult RecipeRow × DB :=
  match cred with
  | none => (.err 401, db)
  | some u =>
    match findRecipe db u rid with
    | none => (.err 404, db)
    | some r =>
      let r' := applyPut r p
      (.ok 200 r',
       { db with recipes := db.recipes.map (fun x => if x.user = u ∧ x.id = rid then r' else x) })

/-- Next fresh recipe id: one past the largest id in the table. -/
def nextRecipeId (db : DB) : Nat :=
  (db.recipes.foldr (fun r m => max r.id m) 0) + 1

/-- Payload of Recipe `CREATE`: required scalars plus optional
`tags`/`ingredients` id lists. -/
structure RecipeCreatePayload where
  title : String
  time_minutes : Nat
  price : Int
  link : Option String := none
  tags : Option (List Nat) := none
  ingredients : Option (List Nat) := none
  deriving DecidableEq, Repr

/-- Modelled from the spec: the Recipe `CREATE` endpoint — requires a
credential and a non-empty title; supplied tag/ingredient ids must name
rows owned by the caller (the serializer's querysets are user-scoped),
else 400; on success a fresh row owned by the caller with the
many-to-many links established is persisted and returned (201). -/
def recipeCreate (db : DB) (cred : Option UserId) (p : RecipeCreatePayload) :
    ApiResult RecipeRow × DB :=
  match cred with
  | none => (.err 401, db)
  | some u =>
    if p.title = "" then (.err 400, db)
    else if ¬ ((p.tags.getD []).all (fun t => db.tags.any (fun tg => tg.id = t ∧ tg.user = u))) then
      (.err 400, db)
    else if ¬ ((p.ingredients.getD []).all
        (fun i => db.ingredients.any (fun ig => ig.id = i ∧ ig.user = u))) then
      (.err 400, db)
    else
      let r : RecipeRow :=
        { id := nextRecipeId db, title := p.title, time_minutes := p.time_minutes,
          price := p.price, link := p.link, image := none, user := u,
          tags := p.tags.getD [], ingredients := p.ingredients.getD [] }
      (.ok 201 r, { db with recipes := r :: db.recipes })

/-! ### Serialized representations -/

/-- The compact list-view shape of a recipe: relations as bare id
lists. -/
structure RecipeListRepr where
  id : Nat
  title : String
  time_minutes : Nat
  price : Int
  link : Option String
  tags : List Nat
  ingredients : List Nat
  deriving DecidableEq, Repr

/-- Modelled from the spec: `RecipeSerializer` (missing
`recipe/serializers.py`) — the list representation keeps relations as
bare id lists. -/
def serializeListRepr (r : RecipeRow) : RecipeListRepr :=
  { id := r.id, title := r.title, time_minutes := r.time_minutes,
    price := r.price, link := r.link, tags := r.tags, ingredients := r.ingredients }

/-- The detail-view shape of a recipe: relations fully expanded into
nested objects carrying id and name. -/
structure RecipeDetailRepr where
  id : Nat
  title : String
  time_minutes : Nat
  price : Int
  link : Option String
  tags : List Tag
  ingredients : List Ingredient
  deriving DecidableEq, Repr

/-- Modelled from the spec: `RecipeDetailSerializer` — each related id
is expanded into the full nested object found in its table. -/
def serializeDetailRepr (db : DB) (r : RecipeRow) : RecipeDetailRepr :=
  { id := r.id, title := r.title, time_minutes := r.time_minutes,
    price := r.price, link := r.link,
    tags := r.tags.filterMap (fun t => db.tags.find? (fun tg => tg.id = t)),
    ingredients := r.ingredients.filterMap (fun i => db.ingredients.find? (fun ig => ig.id = i)) }

/-- Modelled from the spec: the Recipe `RETRIEVE` (detail) endpoint —
401 without credential, not-found outside the caller's scope, else the
fully expanded detail representation. -/
def recipeDetail (db : DB) (cred : Option UserId) (rid : Nat) :
    ApiResult RecipeDetailRepr :=
  match cred with
  | none => .err 401
  | some u =>
    match findRecipe db u rid with
    | none => .err 404
    | some r => .ok 200 (serializeDetailRepr db r)

/-- The payload posted to the image-upload sub-action: either a
decodable image (abstracted to its stored reference) or an undecodable
payload. -/
inductive ImagePayload where
  | image (ref : String)
  | notAnImage
  deriving DecidableEq, Repr

/-- Modelled from the spec: the `UPLOAD_IMAGE` sub-action — 401 without
credential, not-found outside the caller's scope, 400 with no persisted
side effect when the payload is not a decodable image, else the image
reference is stored on the row and returned (200). -/
def recipeUploadImage (db : DB) (cred : Option UserId) (rid : Nat) (p : ImagePayload) :
    ApiResult RecipeRow × DB :=
  match cred with
  | none => (.err 401, db)
  | some u =>
    match findRecipe db u rid with
    | none => (.err 404, db)
    | some r =>
      match p with
      | .notAnImage => (.err 400, db)
      | .image ref =>
        let r' := { r with image := some ref }
        (.ok 200 r',
         { db with recipes := db.recipes.map (fun x => if x.user = u ∧ x.id = rid then r' else x) })

/-! ### The users app (`src/app/users/views.py`, present in source)

`ManageUserView` is a `RetrieveUpdateAPIView` with token authentication
whose `get_object` returns `self.request.user`.  The generic view's
framework semantics (out of scope per the spec): `GET` serializes the
object returned by `get_object`; `PATCH` applies the validated payload
to that same object's row and saves it. -/

/-- A row of the user table: id, unique email, profile name. -/
structure UserRec where
  id : Nat
  email : String
  name : String
  deriving DecidableEq, Repr

/-- An authenticated request as seen by `ManageUserView`: the bound
user plus whatever query parameters the client sent (which
`get_object` never consults). -/
structure AuthedRequest where
  user : UserRec
  params : List (String × String)
  deriving DecidableEq, Repr

/-- Embedded from `src/app/users/views.py`,
`ManageUserView.get_object`: `return self.request.user`,
unconditionally. -/
def ManageUserView.get_object (req : AuthedRequest) : UserRec :=
  req.user

/-- A `PATCH` payload for the manage-user endpoint (each field optional). -/
structure UserPatch where
  email : Option String := none
  name : Option String := none
  deriving DecidableEq, Repr

/-- Apply a user patch: supplied fields replace, others untouched. -/
def applyUserPatch (x : UserRec) (p : UserPatch) : UserRec :=
  { x with email := p.email.getD x.email, name := p.name.getD x.name }

/-- Framework semantics of `RetrieveUpdateAPIView.retrieve` over the
embedded `get_object`: the serialized object is the one `get_object`
returns. -/
def manageUserRetrieve (req : AuthedRequest) : UserRec :=
  ManageUserView.get_object req

/-- Framework semantics of `RetrieveUpdateAPIView.update` (PATCH) over
the embedded `get_object`: the row of the object returned by
`get_object` is patched and saved; no other row is written. -/
def manageUserUpdate (users : List UserRec) (req : AuthedRequest) (p : UserPatch) :
    List UserRec :=
  users.map (fun x =>
    if x.id = (ManageUserView.get_object req).id then applyUserPatch x p else x)

/-! ### Auxiliary definitions for the statements and witnesses -/

/-- Insert one space after every comma of a character list: `"1,2"`
becomes `"1, 2"`, the whitespace-laden shape the id-list parser must
tolerate. -/
def spaceAfterCommas : List Char → List Char
  | [] => []
  | c :: cs =>
    if c = ',' then c :: ' ' :: spaceAfterCommas cs else c :: spaceAfterCommas cs

/-- Fixture store shared by concrete witnesses: two tags and one recipe
of user 1, the recipe holding tag 1. -/
def fixtureDB : DB :=
  { tags := [{ id := 1, name := "Main course", user := 1 },
             { id := 2, name := "Fast food", user := 1 }],
    ingredients := [],
    recipes := [{ id := 1, title := "Sample title", time_minutes := 10, price := 12,
                  link := none, image := none, user := 1, tags := [1],
                  ingredients := [] }] }

/-- The recipe row stored in `fixtureDB`. -/
def fixtureRecipe : RecipeRow :=
  { id := 1, title := "Sample title", time_minutes := 10, price := 12,
    link := none, image := none, user := 1, tags := [1], ingredients := [] }

/-- Fixture PATCH payload: new title and tag set, all else unsupplied. -/
def fixturePatch : RecipePatch := { title := some "Pizza", tags := some [2] }

/-- Fixture PUT payload: scalars only, tags and ingredients omitted. -/
def fixturePut : RecipePut := { title := "Pizza", time_minutes := 20, price := 10 }

/-- Fixture store for the filter witnesses: three recipes of user 1
holding tag 1, tag 2, and no tag respectively. -/
def filterDB : DB :=
  { tags := [{ id := 1, name := "Vegan", user := 1 },
             { id := 2, name := "Vegetarian", user := 1 }],
    ingredients := [{ id := 1, name := "Lentil", user := 1 },
                    { id := 2, name := "Mushroom", user := 1 }],
    recipes := [{ id := 1, title := "Lentil Bolognese", time_minutes := 10, price := 12,
                  link := none, image := none, user := 1, tags := [1],
                  ingredients := [1] },
                { id := 2, title := "Mushroom stroganoff", time_minutes := 10, price := 12,
                  link := none, image := none, user := 1, tags := [2],
                  ingredients := [2] },
                { id := 3, title := "Fish and Chips", time_minutes := 10, price := 12,
                  link := none, image := none, user := 1, tags := [],
                  ingredients := [] }] }

/-- Fixture store for the detail-view witness: two tags and one
ingredient of user 1, no recipe yet. -/
def detailDB : DB :=
  { tags := [{ id := 1, name := "Vegan", user := 1 },
             { id := 2, name := "Dessert", user := 1 }],
    ingredients := [{ id := 1, name := "Tofu", user := 1 }],
    recipes := [] }

/-- Fixture user table for the manage-user witness. -/
def fixtureUsers : List UserRec :=
  [{ id := 1, email := "test@gmail.com", name := "Test" },
   { id := 2, email := "otheruser@gmail.com", name := "Other" }]

/-- Fixture authenticated request bound to user 1. -/
def fixtureReq : AuthedRequest :=
  { user := { id := 1, email := "test@gmail.com", name := "Test" }, params := [] }

/-- Fixture manage-user PATCH payload: a new profile name. -/
def fixtureUserPatch : UserPatch := { name := some "New name" }

/-! ## Helper lemmas -/

/-- Membership in the ingredient list queryset forces ownership by the
requesting user. -/
theorem user_of_mem_ingredientListData {db : DB} {u : UserId} {ao : Bool} {i : Ingredient}
    (h : i ∈ ingredientListData db u ao) : i.user = u := by
  simp only [ingredientListData] at h
  rw [(List.perm_insertionSort _ _).mem_iff] at h
  cases ao with
  | false =>
    simp only [Bool.false_eq_true, if_false, List.mem_filter, decide_eq_true_eq] at h
    exact h.2
  | true =>
    simp only [if_true, List.mem_dedup, List.mem_flatMap, List.mem_map, List.mem_filter,
      decide_eq_true_eq] at h
    obtain ⟨a, ⟨_, hau⟩, _, _, rfl⟩ := h
    exact hau

/-- Membership in the recipe list queryset forces ownership by the
requesting user. -/
theorem user_of_mem_recipeListData {db : DB} {u : UserId} {tf inf : Option String}
    {r : RecipeRow} (h : r ∈ recipeListData db u tf inf) : r.user = u := by
  cases tf <;> cases inf <;>
    simp only [recipeListData, List.mem_filter, decide_eq_true_eq] at h <;>
    tauto

/-- A recipe found inside the caller's scope is a stored row owned by
the caller and carrying the requested id. -/
theorem findRecipe_props {db : DB} {u : UserId} {rid : Nat} {r : RecipeRow}
    (h : findRecipe db u rid = some r) :
    r ∈ db.recipes ∧ r.user = u ∧ r.id = rid := by
  unfold findRecipe at h
  have hp := List.find?_some h
  have hm := List.mem_of_find?_eq_some h
  rw [List.mem_filter] at hm
  exact ⟨hm.1, of_decide_eq_true hm.2, of_decide_eq_true hp⟩

/-- After writing the updated row `r'` in place of every row matching
the caller's scope and id, looking the id up in the caller's scope
finds `r'`. -/
theorem find?_filter_map_update {u : UserId} {rid : Nat} {r' : RecipeRow}
    (hu' : r'.user = u) (hid' : r'.id = rid) (l : List RecipeRow) (r : RecipeRow)
    (h : (l.filter (fun x => x.user = u)).find? (fun x => x.id = rid) = some r) :
    ((l.map (fun x => if x.user = u ∧ x.id = rid then r' else x)).filter
        (fun x => x.user = u)).find? (fun x => x.id = rid) = some r' := by
  induction l with
  | nil => simp at h
  | cons x xs ih =>
    by_cases hu : x.user = u
    · by_cases hid : x.id = rid
      · simp [hu, hid, hu', hid']
      · simp [List.filter_cons, List.find?_cons, hu, hid, -List.find?_filter] at h ⊢
        exact ih h
    · simp [List.filter_cons, hu, -List.find?_filter] at h ⊢
      exact ih h

/-- Splitting at commas always yields at least one piece. -/
theorem splitCommas_ne_nil (l : List Char) : splitCommas l ≠ [] := by
  cases l with
  | nil => simp [splitCommas]
  | cons c cs =>
    simp only [splitCommas]
    cases h : splitCommas cs with
    | nil => simp
    | cons p ps => by_cases hc : c = ',' <;> simp [hc]

/-- One unfolding step of `spaceAfterCommas`. -/
theorem spaceAfterCommas_cons (c : Char) (cs : List Char) :
    spaceAfterCommas (c :: cs) =
      if c = ',' then c :: ' ' :: spaceAfterCommas cs else c :: spaceAfterCommas cs := rfl

/-- One unfolding step of `splitCommas` when the tail's split is known. -/
theorem splitCommas_cons (c : Char) (cs : List Char) (q : List Char)
    (qs : List (List Char)) (h : splitCommas cs = q :: qs) :
    splitCommas (c :: cs) = if c = ',' then [] :: q :: qs else (c :: q) :: qs := by
  simp [splitCommas, h]

/-- Inserting a space after every comma leaves the first piece of the
comma split unchanged and prepends one space to every later piece. -/
theorem splitCommas_spaceAfterCommas (l : List Char) :
    splitCommas (spaceAfterCommas l) =
      (splitCommas l).headI :: (splitCommas l).tail.map (fun q => ' ' :: q) := by
  induction l with
  | nil => rfl
  | cons c cs ih =>
    obtain ⟨q, qs, hq⟩ : ∃ q qs, splitCommas cs = q :: qs := by
      cases h : splitCommas cs with
      | nil => exact absurd h (splitCommas_ne_nil cs)
      | cons q qs => exact ⟨q, qs, rfl⟩
    have hA : splitCommas (spaceAfterCommas cs) = q :: qs.map (fun x => ' ' :: x) := by
      rw [ih, hq]; rfl
    by_cases hc : c = ','
    · subst hc
      have h1 : splitCommas (' ' :: spaceAfterCommas cs)
          = (' ' :: q) :: qs.map (fun x => ' ' :: x) := by
        rw [splitCommas_cons _ _ _ _ hA]; simp
      rw [spaceAfterCommas_cons, if_pos rfl, splitCommas_cons _ _ _ _ h1,
        splitCommas_cons _ _ _ _ hq]
      simp
    · rw [spaceAfterCommas_cons, if_neg hc, splitCommas_cons _ _ _ _ hA,
        splitCommas_cons _ _ _ _ hq]
      simp [hc]

/-- Trimming absorbs a leading space. -/
theorem trimSpaces_space_cons (q : List Char) : trimSpaces (' ' :: q) = trimSpaces q := by
  simp [trimSpaces, List.dropWhile_cons]

/-- The id-list parser is insensitive to whitespace inserted after
commas. -/
theorem parseIdList_spaceAfterCommas (s : String) :
    parseIdList (String.mk (spaceAfterCommas s.toList)) = parseIdList s := by
  unfold parseIdList
  have hmk : (String.mk (spaceAfterCommas s.toList)).toList = spaceAfterCommas s.toList :=
    rfl
  rw [hmk, splitCommas_spaceAfterCommas]
  obtain ⟨q, qs, hq⟩ : ∃ q qs, splitCommas s.toList = q :: qs := by
    cases h : splitCommas s.toList with
    | nil => exact absurd h (splitCommas_ne_nil _)
    | cons q qs => exact ⟨q, qs, rfl⟩
  rw [hq]
  simp only [List.filterMap_cons, List.filterMap_map, Function.comp_def,
    trimSpaces_space_cons, List.headI_cons, List.tail_cons]

end Recipe

/-! ## Claim theorems -/

namespace Recipe

/-- C7: a request to the Ingredient-list or Recipe-list endpoint with no
credential is answered 401 unauthorized, and the error constructor
carries no resource data. -/
theorem unauthenticated_list_rejected (db : DB) (ao : Bool) (tf inf : Option String) :
    ingredientList db none ao = .err 401 ∧ recipeList db none tf inf = .err 401 :=
  ⟨rfl, rfl⟩

/-- C1: for distinct authenticated users `A ≠ B`, the LIST operation on
the Ingredient and Recipe endpoints invoked by `A` returns only rows
owned by `A` and never a row owned by `B`, whatever rows `B` created. -/
theorem list_scoped_to_owner (db : DB) (A B : UserId) (hAB : A ≠ B)
    (ao : Bool) (tf inf : Option String) :
    (∀ i ∈ ingredientListData db A ao, i.user = A ∧ i.user ≠ B) ∧
    (∀ r ∈ recipeListData db A tf inf, r.user = A ∧ r.user ≠ B) := by
  constructor
  · intro i hi
    have := user_of_mem_ingredientListData hi
    exact ⟨this, this ▸ hAB⟩
  · intro r hr
    have := user_of_mem_recipeListData hr
    exact ⟨this, this ▸ hAB⟩

/-- C1 witness: at a concrete store holding an ingredient of user 2 and
one of user 1, the ingredient found in user 1's list is owned by user 1
and not by user 2. -/
theorem list_scoped_to_owner_witness :
    ({ id := 2, name := "Tumeric", user := 1 } : Ingredient).user = 1 ∧
    ({ id := 2, name := "Tumeric", user := 1 } : Ingredient).user ≠ 2 :=
  (list_scoped_to_owner
      { tags := [],
        ingredients := [{ id := 1, name := "Vinegar", user := 2 },
                        { id := 2, name := "Tumeric", user := 1 }],
        recipes := [{ id := 1, title := "Sample title", time_minutes := 10, price := 12,
                      link := none, image := none, user := 2, tags := [],
                      ingredients := [] }] } 1 2 (by decide) false none none).1
    { id := 2, name := "Tumeric", user := 1 } (by decide)

/-- C2: with `assigned_only=1` the Ingredient LIST returns exactly the
caller's ingredients attached to at least one recipe through the
many-to-many join, and each such ingredient appears exactly once even
when attached to several recipes. -/
theorem assigned_only_exact_and_unique (db : DB) (u : UserId) :
    (∀ i, i ∈ ingredientListData db u true ↔
      i ∈ db.ingredients ∧ i.user = u ∧ ∃ r ∈ db.recipes, i.id ∈ r.ingredients) ∧
    (∀ i ∈ ingredientListData db u true, (ingredientListData db u true).count i = 1) := by
  have hnd : (ingredientListData db u true).Nodup := by
    simp only [ingredientListData, if_true]
    exact ((List.perm_insertionSort _ _).nodup_iff).mpr (List.nodup_dedup _)
  refine ⟨fun i => ?_, fun i hi => List.count_eq_one_of_mem hnd hi⟩
  simp only [ingredientListData, if_true]
  rw [(List.perm_insertionSort _ _).mem_iff]
  simp only [List.mem_dedup, List.mem_flatMap, List.mem_map, List.mem_filter,
    decide_eq_true_eq]
  constructor
  · rintro ⟨a, ⟨ha, hau⟩, _, ⟨hb, hbid⟩, rfl⟩
    exact ⟨ha, hau, _, hb, hbid⟩
  · rintro ⟨hi, hu, r, hr, hid⟩
    exact ⟨i, ⟨hi, hu⟩, r, ⟨hr, hid⟩, rfl⟩

/-- C2 witness: one ingredient attached to two recipes and one
unattached; the assigned-only list is exactly the attached one, with
count 1. -/
theorem assigned_only_exact_and_unique_witness :
    ({ id := 1, name := "Eggs", user := 1 } ∈ ingredientListData
      { tags := [],
        ingredients := [{ id := 1, name := "Eggs", user := 1 },
                        { id := 2, name := "Cheese", user := 1 }],
        recipes := [{ id := 1, title := "Eggs benedict", time_minutes := 30, price := 12,
                      link := none, image := none, user := 1, tags := [],
                      ingredients := [1] },
                    { id := 2, title := "Coriander eggs on toast", time_minutes := 20,
                      price := 5, link := none, image := none, user := 1, tags := [],
                      ingredients := [1] }] } 1 true) ∧
    ((ingredientListData
      { tags := [],
        ingredients := [{ id := 1, name := "Eggs", user := 1 },
                        { id := 2, name := "Cheese", user := 1 }],
        recipes := [{ id := 1, title := "Eggs benedict", time_minutes := 30, price := 12,
                      link := none, image := none, user := 1, tags := [],
                      ingredients := [1] },
                    { id := 2, title := "Coriander eggs on toast", time_minutes := 20,
                      price := 5, link := none, image := none, user := 1, tags := [],
                      ingredients := [1] }] } 1 true).count
      { id := 1, name := "Eggs", user := 1 } = 1) :=
  ⟨by decide,
   (assigned_only_exact_and_unique
      { tags := [],
        ingredients := [{ id := 1, name := "Eggs", user := 1 },
                        { id := 2, name := "Cheese", user := 1 }],
        recipes := [{ id := 1, title := "Eggs benedict", time_minutes := 30, price := 12,
                      link := none, image := none, user := 1, tags := [],
                      ingredients := [1] },
                    { id := 2, title := "Coriander eggs on toast", time_minutes := 20,
                      price := 5, link := none, image := none, user := 1, tags := [],
                      ingredients := [1] }] } 1).2
     { id := 1, name := "Eggs", user := 1 } (by decide)⟩

/-- C3: a PATCH on an owned recipe supplying `tags = [t_new]` and some
scalar fields yields exactly the tag set `{t_new}` (replacement, not
merge), the supplied scalars updated, every unsupplied field untouched,
and the patched row is what the store now holds under that id. -/
theorem patch_replaces_tags_updates_supplied (db : DB) (u : UserId) (rid : Nat)
    (r : RecipeRow) (p : RecipePatch) (tnew : Nat)
    (hfind : findRecipe db u rid = some r) (htags : p.tags = some [tnew]) :
    (recipePatchUpdate db (some u) rid p).1 = .ok 200 (applyPatch r p) ∧
    (applyPatch r p).tags = [tnew] ∧
    (∀ t, p.title = some t → (applyPatch r p).title = t) ∧
    (p.title = none → (applyPatch r p).title = r.title) ∧
    (∀ m, p.time_minutes = some m → (applyPatch r p).time_minutes = m) ∧
    (p.time_minutes = none → (applyPatch r p).time_minutes = r.time_minutes) ∧
    (∀ c, p.price = some c → (applyPatch r p).price = c) ∧
    (p.price = none → (applyPatch r p).price = r.price) ∧
    (p.link = none → (applyPatch r p).link = r.link) ∧
    (p.ingredients = none → (applyPatch r p).ingredients = r.ingredients) ∧
    (applyPatch r p).id = r.id ∧ (applyPatch r p).user = r.user ∧
    (applyPatch r p).image = r.image ∧
    findRecipe (recipePatchUpdate db (some u) rid p).2 u rid = some (applyPatch r p) := by
  obtain ⟨hmem, huser, hid⟩ := findRecipe_props hfind
  refine ⟨by simp [recipePatchUpdate, hfind], by simp [applyPatch, htags],
    fun t ht => by simp [applyPatch, ht], fun ht => by simp [applyPatch, ht],
    fun m hm => by simp [applyPatch, hm], fun hm => by simp [applyPatch, hm],
    fun c hc => by simp [applyPatch, hc], fun hc => by simp [applyPatch, hc],
    fun hl => by simp [applyPatch, hl], fun hg => by simp [applyPatch, hg],
    rfl, rfl, rfl, ?_⟩
  have h2 : (recipePatchUpdate db (some u) rid p).2.recipes
      = db.recipes.map (fun x => if x.user = u ∧ x.id = rid then applyPatch r p else x) := by
    simp [recipePatchUpdate, hfind]
  unfold findRecipe at hfind ⊢
  rw [h2]
  exact find?_filter_map_update (show (applyPatch r p).user = u from huser)
    (show (applyPatch r p).id = rid from hid) db.recipes r hfind

/-- C3 witness: patching the fixture recipe with title "Pizza" and
tags [2] replaces the tag set by [2], sets the title, keeps the
unsupplied time untouched, and persists the patched row. -/
theorem patch_replaces_tags_updates_supplied_witness :
    (recipePatchUpdate fixtureDB (some 1) 1 fixturePatch).1 = .ok 200 (applyPatch fixtureRecipe fixturePatch) ∧
    (applyPatch fixtureRecipe fixturePatch).tags = [2] ∧
    (applyPatch fixtureRecipe fixturePatch).title = "Pizza" ∧
    (applyPatch fixtureRecipe fixturePatch).time_minutes = fixtureRecipe.time_minutes ∧
    findRecipe (recipePatchUpdate fixtureDB (some 1) 1 fixturePatch).2 1 1 = some (applyPatch fixtureRecipe fixturePatch) := by
  obtain ⟨hA, hB, hC, -, -, hF, -, -, -, -, -, -, -, hN⟩ :=
    patch_replaces_tags_updates_supplied fixtureDB 1 1 fixtureRecipe fixturePatch 2 (by decide) rfl
  exact ⟨hA, hB, hC "Pizza" rfl, hF rfl, hN⟩

/-- C4: a PUT on an owned recipe that supplies the scalar fields but
omits `tags` leaves the recipe with exactly the supplied scalars and an
empty tag set — the previously non-empty tag set is cleared, and the
replaced row is what the store now holds under that id. -/
theorem put_clears_omitted_tags (db : DB) (u : UserId) (rid : Nat)
    (r : RecipeRow) (p : RecipePut)
    (hfind : findRecipe db u rid = some r) (_hnonempty : r.tags ≠ [])
    (htags : p.tags = none) :
    (recipePutUpdate db (some u) rid p).1 = .ok 200 (applyPut r p) ∧
    (applyPut r p).tags = [] ∧
    (applyPut r p).title = p.title ∧
    (applyPut r p).time_minutes = p.time_minutes ∧
    (applyPut r p).price = p.price ∧
    (applyPut r p).id = r.id ∧ (applyPut r p).user = r.user ∧
    findRecipe (recipePutUpdate db (some u) rid p).2 u rid = some (applyPut r p) := by
  obtain ⟨hmem, huser, hid⟩ := findRecipe_props hfind
  refine ⟨by simp [recipePutUpdate, hfind], by simp [applyPut, htags],
    rfl, rfl, rfl, rfl, rfl, ?_⟩
  have h2 : (recipePutUpdate db (some u) rid p).2.recipes
      = db.recipes.map (fun x => if x.user = u ∧ x.id = rid then applyPut r p else x) := by
    simp [recipePutUpdate, hfind]
  unfold findRecipe at hfind ⊢
  rw [h2]
  exact find?_filter_map_update (show (applyPut r p).user = u from huser)
    (show (applyPut r p).id = rid from hid) db.recipes r hfind

/-- C4 witness: putting scalars without tags onto the fixture recipe
(whose tag set is [1]) clears the tag set and installs the scalars, and
the cleared row is persisted. -/
theorem put_clears_omitted_tags_witness :
    (recipePutUpdate fixtureDB (some 1) 1 fixturePut).1 = .ok 200 (applyPut fixtureRecipe fixturePut) ∧
    (applyPut fixtureRecipe fixturePut).tags = [] ∧
    (applyPut fixtureRecipe fixturePut).title = "Pizza" ∧
    (applyPut fixtureRecipe fixturePut).time_minutes = 20 ∧
    (applyPut fixtureRecipe fixturePut).price = 10 ∧
    findRecipe (recipePutUpdate fixtureDB (some 1) 1 fixturePut).2 1 1 = some (applyPut fixtureRecipe fixturePut) := by
  obtain ⟨hA, hB, hC, hD, hE, -, -, hN⟩ :=
    put_clears_omitted_tags fixtureDB 1 1 fixtureRecipe fixturePut (by decide) (by decide) rfl
  exact ⟨hA, hB, hC, hD, hE, hN⟩

/-- C5: the Recipe LIST id-list filters return exactly the caller's
recipes having at least one tag (respectively ingredient) among the
parsed ids — OR semantics — and a filter string with whitespace
inserted after the commas behaves identically to the plain string. -/
theorem list_filter_or_semantics_whitespace (db : DB) (u : UserId) (s : String) :
    (∀ r, r ∈ recipeListData db u (some s) none ↔
      r ∈ db.recipes ∧ r.user = u ∧ ∃ t ∈ r.tags, t ∈ parseIdList s) ∧
    (∀ r, r ∈ recipeListData db u none (some s) ↔
      r ∈ db.recipes ∧ r.user = u ∧ ∃ i ∈ r.ingredients, i ∈ parseIdList s) ∧
    recipeListData db u (some (String.mk (spaceAfterCommas s.toList))) none
      = recipeListData db u (some s) none ∧
    recipeListData db u none (some (String.mk (spaceAfterCommas s.toList)))
      = recipeListData db u none (some s) := by
  refine ⟨fun r => ?_, fun r => ?_, ?_, ?_⟩
  · simp only [recipeListData, List.mem_filter, List.any_eq_true, decide_eq_true_eq,
      and_assoc]
  · simp only [recipeListData, List.mem_filter, List.any_eq_true, decide_eq_true_eq,
      and_assoc]
  · simp only [recipeListData, parseIdList_spaceAfterCommas]
  · simp only [recipeListData, parseIdList_spaceAfterCommas]

/-- C5 witness: over the filter fixture store, filtering by
`tags="1, 2"` equals filtering by `tags="1,2"`, and the recipe holding
tag 1 is in the filtered list while the untagged one is not. -/
theorem list_filter_or_semantics_whitespace_witness :
    recipeListData filterDB 1 (some "1, 2") none
      = recipeListData filterDB 1 (some "1,2") none ∧
    ({ id := 1, title := "Lentil Bolognese", time_minutes := 10, price := 12,
       link := none, image := none, user := 1, tags := [1],
       ingredients := [1] } : RecipeRow) ∈ recipeListData filterDB 1 (some "1,2") none ∧
    ¬ (({ id := 3, title := "Fish and Chips", time_minutes := 10, price := 12,
          link := none, image := none, user := 1, tags := [],
          ingredients := [] } : RecipeRow) ∈ recipeListData filterDB 1 (some "1,2") none) := by
  obtain ⟨hmem, -, heq, -⟩ := list_filter_or_semantics_whitespace filterDB 1 "1,2"
  have hs : String.mk (spaceAfterCommas ("1,2").toList) = "1, 2" := by decide
  rw [hs] at heq
  refine ⟨heq, (hmem _).mpr ⟨by decide, by decide, 1, by decide, by decide⟩, ?_⟩
  intro hmem3
  obtain ⟨-, -, t, ht, -⟩ := (hmem _).mp hmem3
  simp at ht

/-- C6: Ingredient CREATE with a missing or empty name fails with 400
and persists nothing; with a non-empty name it succeeds with 201 and
persists a row with that name owned by the caller. -/
theorem ingredient_create_validation (db : DB) (u : UserId) (n : String) :
    ingredientCreate db (some u) none = (.err 400, db) ∧
    ingredientCreate db (some u) (some "") = (.err 400, db) ∧
    (n ≠ "" →
      (ingredientCreate db (some u) (some n)).1 =
        .ok 201 { id := nextIngredientId db, name := n, user := u } ∧
      ({ id := nextIngredientId db, name := n, user := u } : Ingredient) ∈
        (ingredientCreate db (some u) (some n)).2.ingredients) := by
  refine ⟨rfl, by simp [ingredientCreate], fun hn => ⟨?_, ?_⟩⟩ <;>
    simp [ingredientCreate, hn]

/-- C6 witness: over the fixture store, creating "Test ingredient" as
user 1 succeeds and persists the row; the empty name is rejected with
400 and the store is unchanged. -/
theorem ingredient_create_validation_witness :
    ingredientCreate fixtureDB (some 1) (some "") = (.err 400, fixtureDB) ∧
    (ingredientCreate fixtureDB (some 1) (some "Test ingredient")).1 =
      .ok 201 { id := nextIngredientId fixtureDB, name := "Test ingredient", user := 1 } ∧
    ({ id := nextIngredientId fixtureDB, name := "Test ingredient", user := 1 }
        : Ingredient) ∈
      (ingredientCreate fixtureDB (some 1) (some "Test ingredient")).2.ingredients := by
  obtain ⟨-, hempty, hok⟩ := ingredient_create_validation fixtureDB 1 "Test ingredient"
  obtain ⟨h1, h2⟩ := hok (by decide)
  exact ⟨hempty, h1, h2⟩

/-- C8: posting an undecodable image payload to the upload-image
sub-action of an owned recipe yields 400 and persists no side effect:
the store is unchanged and the recipe row (its image field included) is
still what it was. -/
theorem upload_bad_image_no_side_effect (db : DB) (u : UserId) (rid : Nat) (r : RecipeRow)
    (hfind : findRecipe db u rid = some r) :
    recipeUploadImage db (some u) rid .notAnImage = (.err 400, db) ∧
    findRecipe (recipeUploadImage db (some u) rid .notAnImage).2 u rid = some r := by
  refine ⟨by simp [recipeUploadImage, hfind], ?_⟩
  have hdb : (recipeUploadImage db (some u) rid .notAnImage).2 = db := by
    simp [recipeUploadImage, hfind]
  rw [hdb]
  exact hfind

/-- C8 witness: over the fixture store, a bad upload to recipe 1 is a
400 and the stored row is unchanged. -/
theorem upload_bad_image_no_side_effect_witness :
    recipeUploadImage fixtureDB (some 1) 1 .notAnImage = (.err 400, fixtureDB) ∧
    findRecipe (recipeUploadImage fixtureDB (some 1) 1 .notAnImage).2 1 1
      = some fixtureRecipe :=
  upload_bad_image_no_side_effect fixtureDB 1 1 fixtureRecipe (by decide)

/-- C9: creating a recipe with `tags=[t1,t2]` and `ingredients=[g1]`
succeeds, and the detail view of the created recipe returns the tags
and ingredients as fully expanded nested objects — exactly `[t1, t2]`
and `[g1]` — while the list representation of the same row keeps the
bare id lists. -/
theorem detail_nested_tags_exact (db : DB) (u : UserId) (t1 t2 : Tag) (g1 : Ingredient)
    (title : String) (tm : Nat) (pr : Int)
    (h1 : db.tags.find? (fun tg => tg.id = t1.id) = some t1)
    (h2 : db.tags.find? (fun tg => tg.id = t2.id) = some t2)
    (hg : db.ingredients.find? (fun ig => ig.id = g1.id) = some g1)
    (hu1 : t1.user = u) (hu2 : t2.user = u) (hug : g1.user = u)
    (htitle : title ≠ "") :
    (recipeCreate db (some u)
        { title := title, time_minutes := tm, price := pr,
          tags := some [t1.id, t2.id], ingredients := some [g1.id] }).1
      = .ok 201
          { id := nextRecipeId db, title := title, time_minutes := tm, price := pr,
            link := none, image := none, user := u,
            tags := [t1.id, t2.id], ingredients := [g1.id] } ∧
    recipeDetail (recipeCreate db (some u)
        { title := title, time_minutes := tm, price := pr,
          tags := some [t1.id, t2.id], ingredients := some [g1.id] }).2
        (some u) (nextRecipeId db)
      = .ok 200
          { id := nextRecipeId db, title := title, time_minutes := tm, price := pr,
            link := none, tags := [t1, t2], ingredients := [g1] } ∧
    (serializeListRepr
        { id := nextRecipeId db, title := title, time_minutes := tm, price := pr,
          link := none, image := none, user := u,
          tags := [t1.id, t2.id], ingredients := [g1.id] }).tags = [t1.id, t2.id] := by
  have hv1 : (db.tags.any (fun tg => tg.id = t1.id ∧ tg.user = u)) = true :=
    List.any_eq_true.mpr ⟨t1, List.mem_of_find?_eq_some h1, by simp [hu1]⟩
  have hv2 : (db.tags.any (fun tg => tg.id = t2.id ∧ tg.user = u)) = true :=
    List.any_eq_true.mpr ⟨t2, List.mem_of_find?_eq_some h2, by simp [hu2]⟩
  have hvg : (db.ingredients.any (fun ig => ig.id = g1.id ∧ ig.user = u)) = true :=
    List.any_eq_true.mpr ⟨g1, List.mem_of_find?_eq_some hg, by simp [hug]⟩
  have hall1 : (([t1.id, t2.id]).all
      (fun t => db.tags.any (fun tg => tg.id = t ∧ tg.user = u))) = true := by
    simp only [List.all_cons, List.all_nil, hv1, hv2, Bool.and_self]
  have hall2 : (([g1.id] : List Nat).all
      (fun i => db.ingredients.any (fun ig => ig.id = i ∧ ig.user = u))) = true := by
    simp only [List.all_cons, List.all_nil, hvg, Bool.and_self]
  have hcreate : recipeCreate db (some u)
      { title := title, time_minutes := tm, price := pr,
        tags := some [t1.id, t2.id], ingredients := some [g1.id] }
      = (.ok 201
          { id := nextRecipeId db, title := title, time_minutes := tm, price := pr,
            link := none, image := none, user := u,
            tags := [t1.id, t2.id], ingredients := [g1.id] },
         { db with recipes :=
            { id := nextRecipeId db, title := title, time_minutes := tm, price := pr,
              link := none, image := none, user := u,
              tags := [t1.id, t2.id], ingredients := [g1.id] } :: db.recipes }) := by
    simp only [recipeCreate, Option.getD_some]
    rw [if_neg htitle, if_neg (not_not_intro hall1), if_neg (not_not_intro hall2)]
  refine ⟨by rw [hcreate], ?_, rfl⟩
  rw [hcreate]
  have hfind : findRecipe
      { db with recipes :=
          { id := nextRecipeId db, title := title, time_minutes := tm, price := pr,
            link := none, image := none, user := u,
            tags := [t1.id, t2.id], ingredients := [g1.id] } :: db.recipes }
      u (nextRecipeId db)
      = some
          { id := nextRecipeId db, title := title, time_minutes := tm, price := pr,
            link := none, image := none, user := u,
            tags := [t1.id, t2.id], ingredients := [g1.id] } := by
    simp [findRecipe, List.filter_cons, List.find?_cons]
  simp [recipeDetail, hfind, serializeDetailRepr, List.filterMap_cons, h1, h2, hg]

/-- C9 witness: over the detail fixture store, creating "Lime
cheesecake" with tags [1, 2] and ingredient [1] as user 1 yields a
detail view whose tags are the nested objects Vegan and Dessert and
whose ingredient is the nested Tofu object. -/
theorem detail_nested_tags_exact_witness :
    (recipeCreate detailDB (some 1)
        { title := "Lime cheesecake", time_minutes := 70, price := 18,
          tags := some [1, 2], ingredients := some [1] }).1
      = .ok 201
          { id := nextRecipeId detailDB, title := "Lime cheesecake", time_minutes := 70,
            price := 18, link := none, image := none, user := 1,
            tags := [1, 2], ingredients := [1] } ∧
    recipeDetail (recipeCreate detailDB (some 1)
        { title := "Lime cheesecake", time_minutes := 70, price := 18,
          tags := some [1, 2], ingredients := some [1] }).2
        (some 1) (nextRecipeId detailDB)
      = .ok 200
          { id := nextRecipeId detailDB, title := "Lime cheesecake", time_minutes := 70,
            price := 18, link := none,
            tags := [{ id := 1, name := "Vegan", user := 1 },
                     { id := 2, name := "Dessert", user := 1 }],
            ingredients := [{ id := 1, name := "Tofu", user := 1 }] } := by
  obtain ⟨hA, hB, -⟩ := detail_nested_tags_exact detailDB 1
    { id := 1, name := "Vegan", user := 1 } { id := 2, name := "Dessert", user := 1 }
    { id := 1, name := "Tofu", user := 1 } "Lime cheesecake" 70 18
    (by decide) (by decide) (by decide) rfl rfl rfl (by decide)
  exact ⟨hA, hB⟩

/-- C10: `ManageUserView.get_object` returns the authenticated
`request.user` unconditionally, so the manage-user endpoint always
reads the caller's own record, and an update writes only the row whose
id is the caller's — every other user's row is left exactly in place. -/
theorem manage_user_self_only (users : List UserRec) (req : AuthedRequest) (p : UserPatch) :
    manageUserRetrieve req = req.user ∧
    ManageUserView.get_object req = req.user ∧
    (∀ (i : Nat) (x : UserRec), users[i]? = some x → x.id ≠ req.user.id →
      (manageUserUpdate users req p)[i]? = some x) ∧
    (∀ (i : Nat) (x : UserRec), users[i]? = some x → x.id = req.user.id →
      (manageUserUpdate users req p)[i]? = some (applyUserPatch x p)) := by
  refine ⟨rfl, rfl, fun i x hx hne => ?_, fun i x hx he => ?_⟩
  · simp [manageUserUpdate, List.getElem?_map, hx, ManageUserView.get_object, hne]
  · simp [manageUserUpdate, List.getElem?_map, hx, ManageUserView.get_object, he]

/-- C10 witness: with user 1 authenticated, retrieve returns user 1's
record, the patch rewrites user 1's row, and user 2's row is byte-for-
byte unchanged. -/
theorem manage_user_self_only_witness :
    manageUserRetrieve fixtureReq = { id := 1, email := "test@gmail.com", name := "Test" } ∧
    (manageUserUpdate fixtureUsers fixtureReq fixtureUserPatch)[1]? =
      some { id := 2, email := "otheruser@gmail.com", name := "Other" } ∧
    (manageUserUpdate fixtureUsers fixtureReq fixtureUserPatch)[0]? =
      some (applyUserPatch { id := 1, email := "test@gmail.com", name := "Test" }
        fixtureUserPatch) := by
  obtain ⟨hr, -, hother, hself⟩ :=
    manage_user_self_only fixtureUsers fixtureReq fixtureUserPatch
  exact ⟨hr,
    hother 1 { id := 2, email := "otheruser@gmail.com", name := "Other" }
      (by decide) (by decide),
    hself 0 { id := 1, email := "test@gmail.com", name := "Test" }
      (by decide) (by decide)⟩

end Recipe

